import Mathlib

/-!
Shallow embedding of the `langchain-ai-agent` repository's MCP client layer
(`src/mcp/mcp-client.ts`, `src/mcp/tools.ts`) and the agent pipeline pieces the
claims touch (`src/agent/ai-agent.ts`, `src/agent/langchain-agent.ts`).

Conventions of the embedding:
* JavaScript's event-driven, promise-based control flow is modelled as explicit
  state passing: each handler becomes a pure step function on a state record,
  and a run function folds a list of events.
* Platform primitives (`Date.now()`, `Math.random()`, `JSON.parse`, the HTTP
  transport, the language model) are inputs: a call site that consumes such a
  value takes it as an argument.
* JavaScript numbers appearing in the claims are integer-valued (timestamps,
  `parseInt` results); they are modelled as `Nat`/`Int`, with `parseInt`'s NaN
  modelled explicitly.
-/

/-- JSON values as exchanged with the MCP server and produced by `JSON.parse`.
Numbers are modelled as integers (the only numbers the claims involve);
`nan` models the JavaScript NaN produced by a failed `parseInt`. -/
inductive JsonValue where
  | null
  | bool (b : Bool)
  | numI (n : Int)
  | nan
  | str (s : String)
  | arr (items : List JsonValue)
  | obj (fields : List (String × JsonValue))

/-- Field lookup in a JSON object literal (first binding wins, as in a
JavaScript object whose keys are distinct). -/
def lookupField : List (String × JsonValue) → String → Option JsonValue
  | [], _ => none
  | (k, v) :: rest, key => if k = key then some v else lookupField rest key

/-- `value.key` property access: `some` when `value` is an object carrying the
field, `none` (JavaScript `undefined`) otherwise. -/
def JsonValue.getField : JsonValue → String → Option JsonValue
  | .obj fields, key => lookupField fields key
  | _, _ => none

/-- JavaScript truthiness of a JSON value. -/
def jsTruthy : JsonValue → Bool
  | .null => false
  | .bool b => b
  | .numI n => n != 0
  | .nan => false
  | .str s => s != ""
  | .arr _ => true
  | .obj _ => true

/-- Truthiness of a property access result (`undefined` is falsy). -/
def truthyField : Option JsonValue → Bool
  | some v => jsTruthy v
  | none => false

/-- `typeof v === 'object' && v !== null` (arrays are objects in JavaScript). -/
def jsIsObjectNonNull : JsonValue → Bool
  | .obj _ => true
  | .arr _ => true
  | _ => false

/-- Decimal value of a digit-character run, as accumulated by `parseInt`. -/
def digitsToNat (ds : List Char) : Nat :=
  ds.foldl (fun acc c => 10 * acc + (c.toNat - 48)) 0

/-- `parseInt(s, 10)` after the leading whitespace has been skipped: an
optional sign, then the longest leading run of decimal digits; NaN when that
run is empty. -/
def jsParseIntChars (cs : List Char) : JsonValue :=
  match cs with
  | '-' :: rest =>
      match rest.takeWhile Char.isDigit with
      | [] => JsonValue.nan
      | ds => JsonValue.numI (-(Int.ofNat (digitsToNat ds)))
  | '+' :: rest =>
      match rest.takeWhile Char.isDigit with
      | [] => JsonValue.nan
      | ds => JsonValue.numI (Int.ofNat (digitsToNat ds))
  | _ =>
      match cs.takeWhile Char.isDigit with
      | [] => JsonValue.nan
      | ds => JsonValue.numI (Int.ofNat (digitsToNat ds))

/-- JavaScript `parseInt(s, 10)`. -/
def jsParseInt (s : String) : JsonValue :=
  jsParseIntChars (s.data.dropWhile Char.isWhitespace)

/-- The regular expression test `/^\d+$/.test(s)`: one or more decimal digits
and nothing else. -/
def testAllDigits (s : String) : Bool :=
  !s.data.isEmpty && s.data.all Char.isDigit

/-- JavaScript `String.prototype.trim()`: strip whitespace from both ends
(defined over the character list so that it evaluates by reduction). -/
def jsTrim (s : String) : String :=
  String.mk (((s.data.dropWhile Char.isWhitespace).reverse.dropWhile
    Char.isWhitespace).reverse)

/-- JavaScript `String.prototype.toLowerCase()` (over the character list). -/
def jsToLower (s : String) : String :=
  String.mk (s.data.map Char.toLower)

/-- `Array.prototype.join(', ')` over a list of strings. -/
def joinComma : List String → String
  | [] => ""
  | [s] => s
  | s :: rest => s ++ ", " ++ joinComma rest

/-- `MCPClient.generateRequestId`: the template literal
`req_${Date.now()}_${Math.random().toString(36).substr(2, 9)}`, as a function
of the millisecond clock reading and the random base-36 suffix drawn at the
call. -/
def generateRequestId (nowMs : Nat) (randSuffix : String) : String :=
  "req_" ++ Nat.repr nowMs ++ "_" ++ randSuffix

/-! ### Tool catalog manager (`MCPToolsManager` in `src/mcp/tools.ts`) -/

/-- An MCP tool descriptor: `{name, description, inputSchema}`. -/
structure MCPTool where
  name : String
  description : String
  inputSchema : JsonValue

/-- The mutable fields of `MCPToolsManager` that the claims concern. -/
structure ManagerState where
  toolsCache : Option (List MCPTool)
  cacheTimestamp : Nat

/-- `cacheExpiry = 300000` (5 minutes), fixed at construction. -/
def cacheExpiry : Nat := 300000

/-- A freshly constructed manager: `toolsCache = null`, `cacheTimestamp = 0`. -/
def initialManagerState : ManagerState :=
  { toolsCache := none, cacheTimestamp := 0 }

/-- The environment one `fetchAvailableTools` call runs in: the clock reading,
the outcome of the `waitForSessionId` poll (`none` models the 10 s poll
expiring with no session), the connection flag, and what the
`tools/list` round trip would deliver if issued. -/
structure FetchEnv where
  now : Nat
  sessionId : Option String
  connected : Bool
  remoteTools : Except String (List MCPTool)

/-- Result of one `fetchAvailableTools` call: the returned (or thrown) value,
the manager state after the call, and how many `tools/list` requests went to
the side channel during the call. -/
structure FetchOutcome where
  result : Except String (List MCPTool)
  state : ManagerState
  listRequests : Nat

/-- The cache-miss path of `fetchAvailableTools`: wait for a session, check the
connection, issue the `tools/list` request, cache and return its result. -/
def fetchFromRemote (st : ManagerState) (env : FetchEnv) : FetchOutcome :=
  match env.sessionId with
  | none =>
      { result := Except.error "Timeout waiting for MCP session ID",
        state := st, listRequests := 0 }
  | some _ =>
      if env.connected = false then
        { result := Except.error "MCP client not connected",
          state := st, listRequests := 0 }
      else
        match env.remoteTools with
        | Except.error e =>
            { result := Except.error e, state := st, listRequests := 1 }
        | Except.ok tools =>
            { result := Except.ok tools,
              state := { toolsCache := some tools, cacheTimestamp := env.now },
              listRequests := 1 }

/-- `MCPToolsManager.fetchAvailableTools(forceRefresh)`: return the cached
snapshot when it exists, is within its TTL and no refresh is forced; otherwise
go remote. -/
def fetchAvailableTools (forceRefresh : Bool) (st : ManagerState) (env : FetchEnv) :
    FetchOutcome :=
  match st.toolsCache with
  | some cached =>
      if forceRefresh = false ∧ env.now - st.cacheTimestamp < cacheExpiry then
        { result := Except.ok cached, state := st, listRequests := 0 }
      else
        fetchFromRemote st env
  | none => fetchFromRemote st env

/-- `MCPToolsManager.getToolSchema(toolName)`: fetch (possibly from cache),
look the tool up by name, return its `inputSchema`; any error is caught and
turned into `null`. -/
def getToolSchema (toolName : String) (st : ManagerState) (env : FetchEnv) :
    Option JsonValue × ManagerState × Nat :=
  let o := fetchAvailableTools false st env
  match o.result with
  | Except.ok tools =>
      ((tools.find? (fun t => t.name == toolName)).map MCPTool.inputSchema,
       o.state, o.listRequests)
  | Except.error _ => (none, o.state, o.listRequests)

/-- The not-found message thrown by `MCPToolsManager.callTool`. -/
def notFoundMessage (toolName : String) (tools : List MCPTool) : String :=
  "Tool '" ++ toolName ++ "' not found. Available tools: "
    ++ joinComma (tools.map MCPTool.name)

/-- Result of one `callTool` call: the value returned or error thrown, the
manager state afterwards, the number of `tools/list` requests issued by the
embedded fetch, and whether a `tools/call` request was sent. -/
structure CallOutcome where
  result : Except String JsonValue
  state : ManagerState
  listRequests : Nat
  callRequestSent : Bool

/-- `MCPToolsManager.callTool(toolName, toolArguments)`: validate the tool
against the (possibly cached) catalog, then send the `tools/call` request.
`callResult` is what `sendToolCallRequest` would deliver if the request is
sent. -/
def callTool (toolName : String) (st : ManagerState) (env : FetchEnv)
    (callResult : Except String JsonValue) : CallOutcome :=
  let o := fetchAvailableTools false st env
  match o.result with
  | Except.error e =>
      { result := Except.error e, state := o.state,
        listRequests := o.listRequests, callRequestSent := false }
  | Except.ok tools =>
      match tools.find? (fun t => t.name == toolName) with
      | none =>
          { result := Except.error (notFoundMessage toolName tools),
            state := o.state, listRequests := o.listRequests,
            callRequestSent := false }
      | some _ =>
          if env.connected = false then
            { result := Except.error "MCP client not connected",
              state := o.state, listRequests := o.listRequests,
              callRequestSent := false }
          else
            { result := callResult, state := o.state,
              listRequests := o.listRequests, callRequestSent := true }

/-! ### SSE client: session manager and request correlator
(`MCPClient` in `src/mcp/mcp-client.ts`) -/

/-- An inbound SSE message after `JSON.parse`, restricted to the fields
`handleMessage` inspects. A field is `none` when absent or not a string
(`isValidMCPMessage` checks `typeof ... === 'string'`; the correlation map's
keys are strings, so only string ids can match it). -/
structure InboundMessage where
  id : Option String
  errorMsg : Option String
  jsonrpc : Option String
  method : Option String
  paramsName : Option String
  paramsSessionId : Option String

/-- `MCPClient.isValidMCPMessage`. -/
def isValidMCPMessage (m : InboundMessage) : Bool :=
  m.jsonrpc == some "2.0" && m.method == some "tools/call"
    && m.paramsName.isSome && m.paramsSessionId.isSome && m.id.isSome

/-- The mutable fields of `MCPClient` the claims concern. `pending` holds the
keys of the `pendingRequests` map (the claims are about registration and
removal, not the stored resolver closures); `fetchTriggers` counts the
`fetchToolsAfterSessionEstablished()` calls fired on session establishment. -/
structure ClientState where
  sessionId : Option String
  pending : List String
  fetchTriggers : Nat

/-- The client right after `connect()` resolves: no session, empty
correlation map. -/
def initialClientState : ClientState :=
  { sessionId := none, pending := [], fetchTriggers := 0 }

/-- `pendingRequests.set(id, ...)`: key presence after a registration (the map
overwrites the entry if the key is already present). -/
def registerPending (l : List String) (i : String) : List String :=
  if i ∈ l then l else i :: l

/-- `pendingRequests.delete(id)`: key presence after a deletion. -/
def removePending : List String → String → List String
  | [], _ => []
  | x :: rest, i => if x = i then removePending rest i else x :: removePending rest i

/-- Observable effects of one handled event. A promise settles at most once,
so a `resolve`/`reject` call taking effect is recorded only when the entry
was still registered (the code deletes the entry in the same breath). -/
inductive CAction where
  | resolved (id : String)
  | rejectedError (id : String)
  | rejectedTimeout (id : String)
  | rejectedSendFailure (id : String)
  | sessionEstablished (sid : String)
  | warnedUnknown

/-- The non-response half of `handleMessage`: a valid `tools/call`-shaped
notification seeds the session (first one only, and only when its
`params.sessionId` is truthy) and fires the automatic catalog fetch; anything
else is logged as unknown. -/
def handleNonResponse (st : ClientState) (m : InboundMessage) :
    ClientState × List CAction :=
  if isValidMCPMessage m then
    match st.sessionId, m.paramsSessionId with
    | none, some sid =>
        if sid ≠ "" then
          ({ st with sessionId := some sid, fetchTriggers := st.fetchTriggers + 1 },
           [CAction.sessionEstablished sid])
        else (st, [])
    | _, _ => (st, [])
  else (st, [CAction.warnedUnknown])

/-- `MCPClient.handleMessage`: a message whose (truthy) id matches a pending
request is a correlated response — the entry is deleted first, then the stored
resolver or rejecter runs; otherwise the message goes through the
notification path. -/
def handleMessage (st : ClientState) (m : InboundMessage) :
    ClientState × List CAction :=
  match m.id with
  | some i =>
      if i ≠ "" ∧ i ∈ st.pending then
        let st' := { st with pending := removePending st.pending i }
        if m.errorMsg.isSome then (st', [CAction.rejectedError i])
        else (st', [CAction.resolved i])
      else handleNonResponse st m
  | none => handleNonResponse st m

/-- Events driving the correlator: a request registration
(`sendToolsListRequest` / `sendToolCallRequest` storing resolvers under a
fresh id), an inbound SSE message, the request's `setTimeout` callback
firing, and the HTTP send of the request failing (its `.catch` deletes the
entry and rejects; the rejection only takes effect while the promise is
unsettled, i.e. while the entry is still registered). -/
inductive CEvent where
  | register (id : String)
  | inbound (m : InboundMessage)
  | timeoutFire (id : String)
  | sendFailed (id : String)

/-- One event handled by the client. -/
def stepClient (st : ClientState) (e : CEvent) : ClientState × List CAction :=
  match e with
  | CEvent.register i =>
      ({ st with pending := registerPending st.pending i }, [])
  | CEvent.inbound m => handleMessage st m
  | CEvent.timeoutFire i =>
      if i ∈ st.pending then
        ({ st with pending := removePending st.pending i },
         [CAction.rejectedTimeout i])
      else (st, [])
  | CEvent.sendFailed i =>
      if i ∈ st.pending then
        ({ st with pending := removePending st.pending i },
         [CAction.rejectedSendFailure i])
      else (st, [])

/-- Handle a list of events in arrival order, accumulating the actions. -/
def runClient (st : ClientState) : List CEvent → ClientState × List CAction
  | [] => (st, [])
  | e :: es =>
      let r := stepClient st e
      let rF := runClient r.1 es
      (rF.1, r.2 ++ rF.2)

/-- Does this action settle (resolve or reject) the request `i`? -/
def isSettleFor (i : String) : CAction → Bool
  | CAction.resolved j => j == i
  | CAction.rejectedError j => j == i
  | CAction.rejectedTimeout j => j == i
  | CAction.rejectedSendFailure j => j == i
  | _ => false

/-- How many of the actions settle request `i`. -/
def settleCount (i : String) (acts : List CAction) : Nat :=
  (acts.filter (isSettleFor i)).length

/-- How many events of the trace register request `i`. -/
def regCountEvents (i : String) (es : List CEvent) : Nat :=
  (es.filter (fun e =>
    match e with
    | CEvent.register j => j == i
    | _ => false)).length

/-- `handleMessage` folded over inbound messages only (the session-seeding
scenario). -/
def runMessages (st : ClientState) : List InboundMessage → ClientState
  | [] => st
  | m :: ms => runMessages (handleMessage st m).1 ms

/-! ### Outbound request construction
(`sendToolsListRequest` / `sendToolCallRequest`) -/

/-- The JSON body `sendToolsListRequest` posts to the `/messages` endpoint. -/
def mkToolsListRequest (sessionId requestId : String) : JsonValue :=
  JsonValue.obj
    [("jsonrpc", JsonValue.str "2.0"),
     ("method", JsonValue.str "tools/list"),
     ("params", JsonValue.obj [("sessionId", JsonValue.str sessionId)]),
     ("id", JsonValue.str requestId)]

/-- The JSON body `sendToolCallRequest` posts to the `/messages` endpoint. -/
def mkToolCallRequest (toolName : String) (toolArguments : JsonValue)
    (sessionId requestId : String) : JsonValue :=
  JsonValue.obj
    [("jsonrpc", JsonValue.str "2.0"),
     ("method", JsonValue.str "tools/call"),
     ("params", JsonValue.obj
        [("name", JsonValue.str toolName),
         ("arguments", toolArguments),
         ("sessionId", JsonValue.str sessionId)]),
     ("id", JsonValue.str requestId)]

/-! ### Selection stage (`InfobyteAgent.getToolToInvoke` in
`src/agent/ai-agent.ts`) -/

/-- The parse-and-check step of `getToolToInvoke` applied to the model reply:
`parsed` is the outcome of `JSON.parse(llmResponse)` (`none` when the parse
throws). The reply is returned whole when it carries truthy `tool` and `args`
fields; every other path falls through to `return null`. -/
def getToolToInvokeParse (llmResponse : String) (parsed : Option JsonValue) :
    Option JsonValue :=
  match parsed with
  | some p =>
      if truthyField (p.getField "tool") && truthyField (p.getField "args") then
        some p
      else none
  | none => none

/-! ### Schema-driven argument coercion
(`Agent.parseArgumentsWithSchema` in `src/agent/langchain-agent.ts`) -/

/-- One entry of a tool schema's `properties` object. -/
structure SchemaProperty where
  type : Option String

/-- A tool input schema as `parseArgumentsWithSchema` reads it: only the
`properties` object matters, `none` when the field is absent (falsy). The
list keeps the key order of `Object.keys`. -/
structure ToolSchemaShape where
  properties : Option (List (String × SchemaProperty))

/-- Property lookup `properties[param]`. -/
def lookupProp : List (String × SchemaProperty) → String → Option SchemaProperty
  | [], _ => none
  | (k, p) :: rest, key => if k = key then some p else lookupProp rest key

/-- The `for (const param of commonParams)` loop: first common name present
among the properties. -/
def findCommonParam (props : List (String × SchemaProperty)) :
    List String → Option (String × SchemaProperty)
  | [] => none
  | name :: rest =>
      match lookupProp props name with
      | some p => some (name, p)
      | none => findCommonParam props rest

/-- The per-property coercion: `parseInt` for `number`/`integer` types,
lowercased comparison with `'true'` for `boolean`, the trimmed string
otherwise. -/
def coerceToType (input : String) (ty : Option String) : JsonValue :=
  if ty = some "number" ∨ ty = some "integer" then jsParseInt (jsTrim input)
  else if ty = some "boolean" then JsonValue.bool (jsToLower (jsTrim input) == "true")
  else JsonValue.str (jsTrim input)

/-- The `!toolSchema || !toolSchema.properties` fallback: `{id: parseInt(s)}`
for a purely numeric input, `{id: s}` otherwise (`s` the trimmed input). -/
def defaultIdArgs (input : String) : JsonValue :=
  if testAllDigits (jsTrim input) then
    JsonValue.obj [("id", jsParseInt (jsTrim input))]
  else
    JsonValue.obj [("id", JsonValue.str (jsTrim input))]

/-- The schema-directed branch of `parseArgumentsWithSchema`: a single
property takes the coerced input; otherwise the first present common
parameter name takes it (coerced); otherwise the first property takes the
trimmed input uncoerced. With an empty `properties` object,
`propertyNames[0]` is `undefined` and JavaScript coerces the computed key to
the string `"undefined"`. -/
def parseWithProperties (input : String) (props : List (String × SchemaProperty)) :
    JsonValue :=
  match props with
  | [(k, p)] => JsonValue.obj [(k, coerceToType input p.type)]
  | _ =>
      match findCommonParam props ["id", "query", "input", "text", "message"] with
      | some (k, p) => JsonValue.obj [(k, coerceToType input p.type)]
      | none =>
          match props with
          | [] => JsonValue.obj [("undefined", JsonValue.str (jsTrim input))]
          | (k, _) :: _ => JsonValue.obj [(k, JsonValue.str (jsTrim input))]

/-- `Agent.parseArgumentsWithSchema(input, toolSchema)`: `parsed` is the
outcome of `JSON.parse(input)` (`none` when the parse throws). A parsed
object (or array) is returned as-is; every other input is mapped onto the
schema. -/
def parseArgumentsWithSchema (input : String) (parsed : Option JsonValue)
    (toolSchema : Option ToolSchemaShape) : JsonValue :=
  match parsed with
  | some v =>
      if jsIsObjectNonNull v then v
      else parseArgumentsNoJson input toolSchema
  | none => parseArgumentsNoJson input toolSchema
where
  parseArgumentsNoJson (input : String) (toolSchema : Option ToolSchemaShape) :
      JsonValue :=
    match toolSchema with
    | none => defaultIdArgs input
    | some sch =>
        match sch.properties with
        | none => defaultIdArgs input
        | some props => parseWithProperties input props

/-! ### Module-level client singleton
(`initializeMCPClient` in `src/mcp/mcp-client.ts`) -/

/-- The fields the `MCPClient` constructor initialises (the constructor also
news up an `MCPToolsManager` with the same URL). -/
structure MCPClientInstance where
  mcpUrl : String
  sessionId : Option String
  isConnected : Bool
  reconnectAttempts : Nat
  toolsManagerUrl : String
  toolsManagerState : ManagerState

/-- `new MCPClient(mcpUrl)`. -/
def mkMCPClient (mcpUrl : String) : MCPClientInstance :=
  { mcpUrl := mcpUrl, sessionId := none, isConnected := false,
    reconnectAttempts := 0, toolsManagerUrl := mcpUrl,
    toolsManagerState := initialManagerState }

/-- `initializeMCPClient(mcpUrl)` acting on the module-level `mcpClient`
binding: construct the client only when the binding is still null, and return
the (old or new) instance together with the binding afterwards. -/
def initializeMCPClient (mcpUrl : String) (globalClient : Option MCPClientInstance) :
    MCPClientInstance × Option MCPClientInstance :=
  match globalClient with
  | none =>
      let c := mkMCPClient mcpUrl
      (c, some c)
  | some c => (c, some c)

/-! ### Supporting lemmas: decimal rendering of `Nat.repr` is injective and
never contains an underscore (used for the request-identifier claims). -/

/-- The decimal digit characters of `n`, most significant first (empty for 0). -/
def decDigitChars (n : Nat) : List Char :=
  ((Nat.digits 10 n).map Nat.digitChar).reverse

theorem decDigitChars_step (n : Nat) (hpos : 0 < n) :
    decDigitChars n = decDigitChars (n / 10) ++ [Nat.digitChar (n % 10)] := by
  rw [decDigitChars, Nat.digits_def' (by norm_num : (1:Nat) < 10) hpos]
  simp [decDigitChars]

theorem toDigitsCore_eq_decChars :
    ∀ (fuel n : Nat) (ds : List Char), n < fuel →
      Nat.toDigitsCore 10 fuel n ds = (if n = 0 then ['0'] else decDigitChars n) ++ ds := by
  intro fuel
  induction fuel with
  | zero => intro n ds h; exact absurd h (Nat.not_lt_zero n)
  | succ f ih =>
    intro n ds h
    by_cases h0 : n / 10 = 0
    · by_cases hn : n = 0
      · subst hn
        show Nat.toDigitsCore 10 (f + 1) 0 ds = ['0'] ++ ds
        simp [Nat.toDigitsCore]
        rfl
      · have hlt10 : n < 10 := by omega
        show Nat.toDigitsCore 10 (f + 1) n ds = _
        simp only [Nat.toDigitsCore, h0, if_true, if_neg hn]
        rw [decDigitChars, Nat.digits_of_lt 10 n hn hlt10]
        simp [Nat.mod_eq_of_lt hlt10]
    · have hn : n ≠ 0 := by omega
      have hpos : 0 < n := Nat.pos_of_ne_zero hn
      have hlt : n / 10 < f := by
        have := Nat.div_lt_self hpos (by norm_num : (1:Nat) < 10)
        omega
      show Nat.toDigitsCore 10 (f + 1) n ds = _
      simp only [Nat.toDigitsCore, h0, if_false]
      rw [ih (n / 10) (Nat.digitChar (n % 10) :: ds) hlt, if_neg h0, if_neg hn,
        decDigitChars_step n hpos]
      simp [List.append_assoc]

theorem repr_data_eq (n : Nat) :
    (Nat.repr n).data = if n = 0 then ['0'] else decDigitChars n := by
  show (Nat.toDigits 10 n).asString.data = _
  rw [Nat.toDigits, toDigitsCore_eq_decChars (n + 1) n [] (Nat.lt_succ_self n)]
  simp [List.asString]

theorem digitChar_injOn :
    ∀ a, a < 10 → ∀ b, b < 10 → Nat.digitChar a = Nat.digitChar b → a = b := by decide

theorem digitChar_ne_underscore : ∀ a, a < 10 → Nat.digitChar a ≠ '_' := by decide

theorem map_digitChar_injOn :
    ∀ (l1 l2 : List Nat), (∀ x ∈ l1, x < 10) → (∀ x ∈ l2, x < 10) →
      l1.map Nat.digitChar = l2.map Nat.digitChar → l1 = l2 := by
  intro l1
  induction l1 with
  | nil =>
    intro l2 _ _ h
    cases l2 with
    | nil => rfl
    | cons y u => simp at h
  | cons x t ih =>
    intro l2 h1 h2 h
    cases l2 with
    | nil => simp at h
    | cons y u =>
      simp only [List.map_cons, List.cons.injEq] at h
      have hx : x = y :=
        digitChar_injOn x (h1 x (List.mem_cons_self x t)) y
          (h2 y (List.mem_cons_self y u)) h.1
      have ht : t = u :=
        ih u (fun z hz => h1 z (List.mem_cons_of_mem x hz))
          (fun z hz => h2 z (List.mem_cons_of_mem y hz)) h.2
      rw [hx, ht]

theorem underscore_not_mem_repr (n : Nat) : '_' ∉ (Nat.repr n).data := by
  rw [repr_data_eq]
  split_ifs with h
  · simp
  · intro hmem
    rw [decDigitChars, List.mem_reverse] at hmem
    obtain ⟨d, hd, hdc⟩ := List.mem_map.mp hmem
    exact digitChar_ne_underscore d (Nat.digits_lt_base (by norm_num) hd) hdc

theorem decDigitChars_eq_zeroChar (k : Nat) (hk : decDigitChars k = ['0']) : k = 0 := by
  rw [decDigitChars] at hk
  have h2 := congrArg List.reverse hk
  rw [List.reverse_reverse] at h2
  cases hdig : Nat.digits 10 k with
  | nil => rw [hdig] at h2; simp at h2
  | cons d rest =>
    rw [hdig] at h2
    simp only [List.map_cons] at h2
    have h3 : Nat.digitChar d = '0' ∧ List.map Nat.digitChar rest = [] := by
      constructor
      · exact (List.cons.injEq _ _ _ _ ▸ h2 : _ ∧ _).1
      · exact (List.cons.injEq _ _ _ _ ▸ h2 : _ ∧ _).2
    have hrest : rest = [] := List.map_eq_nil_iff.mp h3.2
    have hd10 : d < 10 :=
      Nat.digits_lt_base (by norm_num) (hdig ▸ List.mem_cons_self d rest)
    have hd0 : d = 0 := digitChar_injOn d hd10 0 (by norm_num) h3.1
    have hofd := Nat.ofDigits_digits 10 k
    rw [hdig, hrest, hd0] at hofd
    simpa [Nat.ofDigits] using hofd.symm

theorem natRepr_injective (m n : Nat) (h : Nat.repr m = Nat.repr n) : m = n := by
  have hd : (Nat.repr m).data = (Nat.repr n).data := by rw [h]
  rw [repr_data_eq, repr_data_eq] at hd
  by_cases hm : m = 0 <;> by_cases hn : n = 0
  · rw [hm, hn]
  · rw [if_pos hm, if_neg hn] at hd
    exact absurd (decDigitChars_eq_zeroChar n hd.symm) hn
  · rw [if_neg hm, if_pos hn] at hd
    exact absurd (decDigitChars_eq_zeroChar m hd) hm
  · rw [if_neg hm, if_neg hn] at hd
    rw [decDigitChars, decDigitChars] at hd
    have h2 := congrArg List.reverse hd
    rw [List.reverse_reverse, List.reverse_reverse] at h2
    have hdig := map_digitChar_injOn _ _
      (fun x hx => Nat.digits_lt_base (by norm_num) hx)
      (fun x hx => Nat.digits_lt_base (by norm_num) hx) h2
    have hm' := Nat.ofDigits_digits 10 m
    rw [hdig, Nat.ofDigits_digits 10 n] at hm'
    exact hm'.symm

theorem string_data_inj (s t : String) (h : s.data = t.data) : s = t := by
  cases s; cases t; simp_all

theorem append_sep_inj :
    ∀ (a1 b1 a2 b2 : List Char), '_' ∉ a1 → '_' ∉ a2 →
      a1 ++ '_' :: b1 = a2 ++ '_' :: b2 → a1 = a2 ∧ b1 = b2 := by
  intro a1
  induction a1 with
  | nil =>
    intro b1 a2 b2 _ h2 h
    cases a2 with
    | nil => simpa using h
    | cons y u =>
      exfalso
      simp only [List.nil_append, List.cons_append, List.cons.injEq] at h
      exact h2 (h.1 ▸ List.mem_cons_self y u)
  | cons x t ih =>
    intro b1 a2 b2 h1 h2 h
    cases a2 with
    | nil =>
      exfalso
      simp only [List.nil_append, List.cons_append, List.cons.injEq] at h
      exact h1 (h.1.symm ▸ List.mem_cons_self x t)
    | cons y u =>
      simp only [List.cons_append, List.cons.injEq] at h
      have hrec := ih b1 u b2
        (fun hm => h1 (List.mem_cons_of_mem x hm))
        (fun hm => h2 (List.mem_cons_of_mem y hm)) h.2
      exact ⟨by rw [h.1, hrec.1], hrec.2⟩

theorem generateRequestId_injective (t1 : Nat) (s1 : String) (t2 : Nat) (s2 : String)
    (h : generateRequestId t1 s1 = generateRequestId t2 s2) : t1 = t2 ∧ s1 = s2 := by
  have hdata := congrArg String.data h
  simp only [generateRequestId, String.data_append, List.append_assoc] at hdata
  have hform : (Nat.repr t1).data ++ '_' :: s1.data
      = (Nat.repr t2).data ++ '_' :: s2.data := by
    have hstrip : ∀ (x y : List Char),
        ('r' :: 'e' :: 'q' :: '_' :: x : List Char) = 'r' :: 'e' :: 'q' :: '_' :: y
          → x = y := by
      intro x y hxy
      simpa using hxy
    exact hstrip _ _ (by simpa using hdata)
  obtain ⟨hrepr, hsuf⟩ := append_sep_inj _ _ _ _
    (underscore_not_mem_repr t1) (underscore_not_mem_repr t2) hform
  exact ⟨natRepr_injective t1 t2 (string_data_inj _ _ hrepr), string_data_inj _ _ hsuf⟩

/-! ## Claim theorems -/

/-- Claim C2, counterexample: the identifier generator is a pure function of
the millisecond clock and the random draw, so two calls landing in the same
millisecond whose `Math.random()` draws coincide return the same identifier —
the returned identifiers of a call sequence are not always pairwise
distinct. -/
theorem c2_counterexample :
    ¬ (List.map (fun p : Nat × String => generateRequestId p.1 p.2)
        [(1000, "k3j9x2a1q"), (1000, "k3j9x2a1q")]).Nodup := by
  decide

/-- Claim C2, amended: identifiers from a sequence of generator calls are
pairwise distinct provided no two calls observe both the same `Date.now()`
millisecond and the same random suffix (the generator is injective in the
pair, so a repeat of the pair is the only way to collide). -/
theorem c2_amended_distinct (calls : List (Nat × String)) (hnd : calls.Nodup) :
    (List.map (fun p : Nat × String => generateRequestId p.1 p.2) calls).Nodup := by
  refine List.Nodup.map_on ?_ hnd
  intro p _ q _ heq
  have h := generateRequestId_injective p.1 p.2 q.1 q.2 heq
  cases p; cases q
  simp only [Prod.mk.injEq]
  exact h

/-- Witness for `c2_amended_distinct` at a concrete call sequence. -/
theorem c2_witness :
    ([(1000, "abcdefghi"), (1000, "abcdefghj"), (1001, "abcdefghi")]
        : List (Nat × String)).Nodup
    ∧ (List.map (fun p : Nat × String => generateRequestId p.1 p.2)
        [(1000, "abcdefghi"), (1000, "abcdefghj"), (1001, "abcdefghi")]).Nodup :=
  ⟨by decide, c2_amended_distinct
    [(1000, "abcdefghi"), (1000, "abcdefghj"), (1001, "abcdefghi")] (by decide)⟩

/-- Claim C4, counterexample: the outbound request bodies carry the JSON-RPC
version under the field name `jsonrpc`, not `protocolVersion` — at concrete
inputs, neither request shape has a `protocolVersion` field at all. -/
theorem c4_counterexample :
    (mkToolsListRequest "sess-1" "req_1000_abc").getField "protocolVersion" = none
    ∧ (mkToolCallRequest "getProducts" (JsonValue.obj []) "sess-1"
        "req_1000_abc").getField "protocolVersion" = none := by
  exact ⟨rfl, rfl⟩

/-- Claim C4, amended: every outbound call posted over the side channel is a
JSON body of exactly the shape `{jsonrpc: "2.0", method: "tools/list" |
"tools/call", params: {sessionId, name?, arguments?}, id}` — the version
field is named `jsonrpc` (value `"2.0"`), and no `protocolVersion` field is
present. -/
theorem c4_amended_wire_shape (sid rid toolName : String) (args : JsonValue) :
    (mkToolsListRequest sid rid).getField "jsonrpc" = some (JsonValue.str "2.0")
    ∧ (mkToolsListRequest sid rid).getField "method" = some (JsonValue.str "tools/list")
    ∧ (mkToolsListRequest sid rid).getField "params"
        = some (JsonValue.obj [("sessionId", JsonValue.str sid)])
    ∧ (mkToolsListRequest sid rid).getField "id" = some (JsonValue.str rid)
    ∧ (mkToolsListRequest sid rid).getField "protocolVersion" = none
    ∧ (mkToolCallRequest toolName args sid rid).getField "jsonrpc"
        = some (JsonValue.str "2.0")
    ∧ (mkToolCallRequest toolName args sid rid).getField "method"
        = some (JsonValue.str "tools/call")
    ∧ (mkToolCallRequest toolName args sid rid).getField "params"
        = some (JsonValue.obj
            [("name", JsonValue.str toolName), ("arguments", args),
             ("sessionId", JsonValue.str sid)])
    ∧ (mkToolCallRequest toolName args sid rid).getField "id"
        = some (JsonValue.str rid)
    ∧ (mkToolCallRequest toolName args sid rid).getField "protocolVersion" = none := by
  exact ⟨rfl, rfl, rfl, rfl, rfl, rfl, rfl, rfl, rfl, rfl⟩

/-- Claim C8, counterexample: on a reply that is not valid JSON the selection
step of `getToolToInvoke` returns `null` — its result is the same for any two
raw replies, so it does not return (or carry) the raw model text as a
candidate final answer. -/
theorem c8_counterexample :
    getToolToInvokeParse "The answer is 42." none = none
    ∧ getToolToInvokeParse "Completely different text" none
        = getToolToInvokeParse "The answer is 42." none := by
  exact ⟨rfl, rfl⟩

/-- Claim C8, amended: when the model reply is not valid JSON, or the parsed
value lacks a truthy `tool` (or `args`) field, `getToolToInvoke` raises no
error: it returns `null`, discarding the raw model text rather than
returning it as a fallback answer. -/
theorem c8_amended_parse_failure_returns_null (llmResponse : String)
    (parsed : Option JsonValue)
    (h : ∀ p, parsed = some p →
      truthyField (p.getField "tool") = false
      ∨ truthyField (p.getField "args") = false) :
    getToolToInvokeParse llmResponse parsed = none := by
  cases parsed with
  | none => rfl
  | some p =>
    rcases h p rfl with h' | h' <;> simp [getToolToInvokeParse, h']

/-- Witness for `c8_amended_parse_failure_returns_null` on an unparseable
reply. -/
theorem c8_witness :
    getToolToInvokeParse "No tool applies here." none = none :=
  c8_amended_parse_failure_returns_null "No tool applies here." none
    (fun _ hp => nomatch hp)

/-- Claim C10: `initializeMCPClient` is idempotent with first-writer-wins
semantics — after `initializeMCPClient(u1)`, a second call with any `u2`
returns the same instance, still configured with `u1`, and leaves the
module-level binding unchanged. -/
theorem c10_initialize_first_writer_wins (u1 u2 : String) :
    (initializeMCPClient u2 (initializeMCPClient u1 none).2).1
      = (initializeMCPClient u1 none).1
    ∧ (initializeMCPClient u1 none).1.mcpUrl = u1
    ∧ (initializeMCPClient u2 (initializeMCPClient u1 none).2).1.mcpUrl = u1
    ∧ (initializeMCPClient u2 (initializeMCPClient u1 none).2).2
      = (initializeMCPClient u1 none).2 := by
  exact ⟨rfl, rfl, rfl, rfl⟩

/-- Claim C3, counterexample: with an empty cache (and a session available),
`getToolSchema` does issue a `tools/list` request and does replace the cached
snapshot — it is not a pure read of the current snapshot regardless of cache
state. -/
theorem c3_counterexample :
    (getToolSchema "getProducts" initialManagerState
      { now := 1000, sessionId := some "sess-1", connected := true,
        remoteTools := Except.ok
          [{ name := "getProducts", description := "list products",
             inputSchema := JsonValue.null }] }).2.2 = 1
    ∧ (getToolSchema "getProducts" initialManagerState
      { now := 1000, sessionId := some "sess-1", connected := true,
        remoteTools := Except.ok
          [{ name := "getProducts", description := "list products",
             inputSchema := JsonValue.null }] }).2.1.toolsCache
        = some [{ name := "getProducts", description := "list products",
                  inputSchema := JsonValue.null }]
    ∧ initialManagerState.toolsCache = none := by
  exact ⟨rfl, rfl, rfl⟩

/-- Claim C3, amended: `getToolSchema` never forces a refresh — whenever the
cached snapshot is still valid (`now - fetchedAt < ttl`), it answers from
that snapshot, leaves the snapshot and its timestamp unchanged, and issues no
`tools/list` request; only when the cache is empty or expired does its
embedded (non-forced) fetch go remote. -/
theorem c3_amended_reads_valid_cache (toolName : String) (st : ManagerState)
    (env : FetchEnv) (cached : List MCPTool)
    (hc : st.toolsCache = some cached)
    (hfresh : env.now - st.cacheTimestamp < cacheExpiry) :
    getToolSchema toolName st env
      = ((cached.find? (fun t => t.name == toolName)).map MCPTool.inputSchema,
         st, 0) := by
  simp [getToolSchema, fetchAvailableTools, hc, hfresh]

/-- Witness for `c3_amended_reads_valid_cache`: a valid cache answers the
schema lookup with no session, no connection and no remote data available. -/
theorem c3_witness :
    (5 : Nat) - 0 < cacheExpiry
    ∧ getToolSchema "t"
        { toolsCache := some [{ name := "t", description := "d",
                                inputSchema := JsonValue.null }],
          cacheTimestamp := 0 }
        { now := 5, sessionId := none, connected := false,
          remoteTools := Except.error "unreachable" }
        = (some JsonValue.null,
           { toolsCache := some [{ name := "t", description := "d",
                                   inputSchema := JsonValue.null }],
             cacheTimestamp := 0 }, 0) := by
  refine ⟨by decide, ?_⟩
  have h := c3_amended_reads_valid_cache "t"
    { toolsCache := some [{ name := "t", description := "d",
                            inputSchema := JsonValue.null }],
      cacheTimestamp := 0 }
    { now := 5, sessionId := none, connected := false,
      remoteTools := Except.error "unreachable" }
    [{ name := "t", description := "d", inputSchema := JsonValue.null }]
    rfl (by decide)
  exact h.trans rfl

/-- Claim C5: starting from an empty cache, the first
`fetchAvailableTools(false)` call issues the one remote `tools/list` request
and snapshots its result at `t0`; a second call at `t1` with `t1 - t0 < ttl`
answers from the cache (no remote request — exactly one remote call across
the pair); a third call at `t2` with `t2 - t0 ≥ ttl` issues a second remote
request and replaces the snapshot. -/
theorem c5_cache_ttl (t0 t1 t2 : Nat) (tools1 tools2 : List MCPTool) (sess : String)
    (h1 : t1 - t0 < cacheExpiry) (h2 : ¬ t2 - t0 < cacheExpiry) :
    fetchAvailableTools false initialManagerState
        { now := t0, sessionId := some sess, connected := true,
          remoteTools := Except.ok tools1 }
      = { result := Except.ok tools1,
          state := { toolsCache := some tools1, cacheTimestamp := t0 },
          listRequests := 1 }
    ∧ fetchAvailableTools false
        { toolsCache := some tools1, cacheTimestamp := t0 }
        { now := t1, sessionId := some sess, connected := true,
          remoteTools := Except.ok tools2 }
      = { result := Except.ok tools1,
          state := { toolsCache := some tools1, cacheTimestamp := t0 },
          listRequests := 0 }
    ∧ fetchAvailableTools false
        { toolsCache := some tools1, cacheTimestamp := t0 }
        { now := t2, sessionId := some sess, connected := true,
          remoteTools := Except.ok tools2 }
      = { result := Except.ok tools2,
          state := { toolsCache := some tools2, cacheTimestamp := t2 },
          listRequests := 1 } := by
  refine ⟨rfl, ?_, ?_⟩
  · simp [fetchAvailableTools, h1]
  · simp [fetchAvailableTools, fetchFromRemote, h2]

/-- Witness for `c5_cache_ttl` at concrete clock readings around the
300000 ms TTL. -/
theorem c5_witness :
    ((1 : Nat) - 0 < cacheExpiry ∧ ¬ (300000 : Nat) - 0 < cacheExpiry)
    ∧ fetchAvailableTools false
        { toolsCache := some [], cacheTimestamp := 0 }
        { now := 1, sessionId := some "s", connected := true,
          remoteTools := Except.ok [{ name := "a", description := "b",
                                      inputSchema := JsonValue.null }] }
      = { result := Except.ok [],
          state := { toolsCache := some [], cacheTimestamp := 0 },
          listRequests := 0 } := by
  refine ⟨⟨by decide, by decide⟩, ?_⟩
  exact (c5_cache_ttl 0 1 300000 []
    [{ name := "a", description := "b", inputSchema := JsonValue.null }]
    "s" (by decide) (by decide)).2.1

/-- Claim C6: when the (possibly cached) fetch inside `callTool` yields a
snapshot that does not contain the requested name, `callTool` rejects with
the not-found error whose message lists exactly the names present in that
snapshot, and no `tools/call` request is sent over the transport. -/
theorem c6_not_found_lists_names (toolName : String) (st : ManagerState)
    (env : FetchEnv) (callResult : Except String JsonValue)
    (tools : List MCPTool)
    (hfetch : (fetchAvailableTools false st env).result = Except.ok tools)
    (habs : toolName ∉ tools.map MCPTool.name) :
    (callTool toolName st env callResult).result
      = Except.error ("Tool '" ++ toolName ++ "' not found. Available tools: "
          ++ joinComma (tools.map MCPTool.name))
    ∧ (callTool toolName st env callResult).callRequestSent = false := by
  have hfind : tools.find? (fun t => t.name == toolName) = none := by
    rw [List.find?_eq_none]
    intro t ht
    simp only [beq_iff_eq]
    intro hname
    exact habs (List.mem_map.mpr ⟨t, ht, hname⟩)
  constructor <;> simp [callTool, hfetch, hfind, notFoundMessage]

/-- Witness for `c6_not_found_lists_names`: a cached catalog holding
`getProducts` and `getUsers`, asked for the absent `deleteAll`. -/
theorem c6_witness :
    (fetchAvailableTools false
        { toolsCache := some
            [{ name := "getProducts", description := "p", inputSchema := JsonValue.null },
             { name := "getUsers", description := "u", inputSchema := JsonValue.null }],
          cacheTimestamp := 0 }
        { now := 1, sessionId := some "s", connected := true,
          remoteTools := Except.error "unused" }).result
      = Except.ok
          [{ name := "getProducts", description := "p", inputSchema := JsonValue.null },
           { name := "getUsers", description := "u", inputSchema := JsonValue.null }]
    ∧ (callTool "deleteAll"
        { toolsCache := some
            [{ name := "getProducts", description := "p", inputSchema := JsonValue.null },
             { name := "getUsers", description := "u", inputSchema := JsonValue.null }],
          cacheTimestamp := 0 }
        { now := 1, sessionId := some "s", connected := true,
          remoteTools := Except.error "unused" }
        (Except.ok JsonValue.null)).result
      = Except.error
          "Tool 'deleteAll' not found. Available tools: getProducts, getUsers"
    ∧ (callTool "deleteAll"
        { toolsCache := some
            [{ name := "getProducts", description := "p", inputSchema := JsonValue.null },
             { name := "getUsers", description := "u", inputSchema := JsonValue.null }],
          cacheTimestamp := 0 }
        { now := 1, sessionId := some "s", connected := true,
          remoteTools := Except.error "unused" }
        (Except.ok JsonValue.null)).callRequestSent = false := by
  have h := c6_not_found_lists_names "deleteAll"
    { toolsCache := some
        [{ name := "getProducts", description := "p", inputSchema := JsonValue.null },
         { name := "getUsers", description := "u", inputSchema := JsonValue.null }],
      cacheTimestamp := 0 }
    { now := 1, sessionId := some "s", connected := true,
      remoteTools := Except.error "unused" }
    (Except.ok JsonValue.null)
    [{ name := "getProducts", description := "p", inputSchema := JsonValue.null },
     { name := "getUsers", description := "u", inputSchema := JsonValue.null }]
    rfl (by decide)
  exact ⟨rfl, h.1.trans (by rfl), h.2⟩

/-- A held session is never overwritten, and no further automatic catalog
fetch fires, whatever message arrives next. -/
theorem handleMessage_session_preserved (st : ClientState) (m : InboundMessage)
    (sid : String) (h : st.sessionId = some sid) :
    (handleMessage st m).1.sessionId = some sid
    ∧ (handleMessage st m).1.fetchTriggers = st.fetchTriggers := by
  have hnr : (handleNonResponse st m).1.sessionId = some sid
      ∧ (handleNonResponse st m).1.fetchTriggers = st.fetchTriggers := by
    unfold handleNonResponse
    split
    · simp [h]
    · exact ⟨h, rfl⟩
  unfold handleMessage
  split
  · split
    · split <;> exact ⟨h, rfl⟩
    · exact hnr
  · exact hnr

/-- `handleMessage_session_preserved` folded over a message list. -/
theorem runMessages_session_preserved (ms : List InboundMessage)
    (st : ClientState) (sid : String) (h : st.sessionId = some sid) :
    (runMessages st ms).sessionId = some sid
    ∧ (runMessages st ms).fetchTriggers = st.fetchTriggers := by
  induction ms generalizing st with
  | nil => exact ⟨h, rfl⟩
  | cons m rest ih =>
    have hp := handleMessage_session_preserved st m sid h
    have := ih (handleMessage st m).1 hp.1
    exact ⟨this.1, this.2.trans hp.2⟩

/-- Claim C7: from the post-connect state (no session, empty correlation
map), the first valid session-bearing message seeds the session with its
`params.sessionId` and fires the one automatic catalog fetch; across any
continuation of inbound traffic the stored identifier stays that first value
and no further automatic fetch fires; and in general a held session
identifier is never changed by a later message. -/
theorem c7_first_message_seeds_session (m : InboundMessage)
    (ms : List InboundMessage) (sid : String)
    (hv : isValidMCPMessage m = true)
    (hs : m.paramsSessionId = some sid) (hne : sid ≠ "") :
    (handleMessage initialClientState m).1.sessionId = some sid
    ∧ (handleMessage initialClientState m).1.fetchTriggers = 1
    ∧ (runMessages initialClientState (m :: ms)).sessionId = some sid
    ∧ (runMessages initialClientState (m :: ms)).fetchTriggers = 1
    ∧ ∀ (st : ClientState) (m2 : InboundMessage) (s : String),
        st.sessionId = some s → (handleMessage st m2).1.sessionId = some s := by
  have hfirst : (handleMessage initialClientState m).1.sessionId = some sid
      ∧ (handleMessage initialClientState m).1.fetchTriggers = 1 := by
    cases hid : m.id with
    | none => simp [handleMessage, handleNonResponse, hv, initialClientState, hs, hne, hid]
    | some i =>
      simp [handleMessage, handleNonResponse, hv, initialClientState, hs, hne, hid]
  have hrun := runMessages_session_preserved ms (handleMessage initialClientState m).1
    sid hfirst.1
  exact ⟨hfirst.1, hfirst.2, hrun.1, hrun.2.trans hfirst.2,
    fun st m2 s hse => (handleMessage_session_preserved st m2 s hse).1⟩

/-- Witness for `c7_first_message_seeds_session`: a concrete session-bearing
notification followed by a second one carrying a different identifier. -/
theorem c7_witness :
    isValidMCPMessage
      { id := some "n1", errorMsg := none, jsonrpc := some "2.0",
        method := some "tools/call", paramsName := some "notify",
        paramsSessionId := some "sess-1" } = true
    ∧ (runMessages initialClientState
        [{ id := some "n1", errorMsg := none, jsonrpc := some "2.0",
           method := some "tools/call", paramsName := some "notify",
           paramsSessionId := some "sess-1" },
         { id := some "n2", errorMsg := none, jsonrpc := some "2.0",
           method := some "tools/call", paramsName := some "notify",
           paramsSessionId := some "sess-2" }]).sessionId = some "sess-1"
    ∧ (runMessages initialClientState
        [{ id := some "n1", errorMsg := none, jsonrpc := some "2.0",
           method := some "tools/call", paramsName := some "notify",
           paramsSessionId := some "sess-1" },
         { id := some "n2", errorMsg := none, jsonrpc := some "2.0",
           method := some "tools/call", paramsName := some "notify",
           paramsSessionId := some "sess-2" }]).fetchTriggers = 1 := by
  have h := c7_first_message_seeds_session
    { id := some "n1", errorMsg := none, jsonrpc := some "2.0",
      method := some "tools/call", paramsName := some "notify",
      paramsSessionId := some "sess-1" }
    [{ id := some "n2", errorMsg := none, jsonrpc := some "2.0",
       method := some "tools/call", paramsName := some "notify",
       paramsSessionId := some "sess-2" }]
    "sess-1" (by decide) rfl (by decide)
  exact ⟨by decide, h.2.2.1, h.2.2.2.1⟩

theorem coerceToType_numeric (input : String) (ty : Option String)
    (h : ty = some "number" ∨ ty = some "integer") :
    coerceToType input ty = jsParseInt (jsTrim input) := by
  unfold coerceToType
  rw [if_pos h]

theorem coerceToType_boolean (input : String) (ty : Option String)
    (h : ty = some "boolean") :
    coerceToType input ty = JsonValue.bool (jsToLower (jsTrim input) == "true") := by
  subst h; rfl

theorem coerceToType_other (input : String) (ty : Option String)
    (h1 : ty ≠ some "number") (h2 : ty ≠ some "integer")
    (h3 : ty ≠ some "boolean") :
    coerceToType input ty = JsonValue.str (jsTrim input) := by
  unfold coerceToType
  rw [if_neg (by tauto), if_neg h3]

/-- Claim C9: for a non-JSON input (or one parsing to a non-object), a
single-property schema maps the whole input onto that property —
`parseInt`-coerced for `number`/`integer`, compared against `'true'`
lowercased for `boolean`, the trimmed string otherwise — and with no schema
properties the input becomes `{id: parseInt(input)}` when purely numeric,
`{id: trimmedInput}` otherwise. -/
theorem c9_parse_arguments_schema (input : String) (parsed : Option JsonValue)
    (hp : ∀ v, parsed = some v → jsIsObjectNonNull v = false) :
    (∀ (k : String) (pspec : SchemaProperty),
      ((pspec.type = some "number" ∨ pspec.type = some "integer") →
        parseArgumentsWithSchema input parsed
            (some { properties := some [(k, pspec)] })
          = JsonValue.obj [(k, jsParseInt (jsTrim input))])
      ∧ (pspec.type = some "boolean" →
        parseArgumentsWithSchema input parsed
            (some { properties := some [(k, pspec)] })
          = JsonValue.obj [(k, JsonValue.bool (jsToLower (jsTrim input) == "true"))])
      ∧ (pspec.type ≠ some "number" → pspec.type ≠ some "integer" →
          pspec.type ≠ some "boolean" →
        parseArgumentsWithSchema input parsed
            (some { properties := some [(k, pspec)] })
          = JsonValue.obj [(k, JsonValue.str (jsTrim input))]))
    ∧ (∀ sch : Option ToolSchemaShape,
        (sch = none ∨ sch = some { properties := none }) →
        (testAllDigits (jsTrim input) = true →
          parseArgumentsWithSchema input parsed sch
            = JsonValue.obj [("id", jsParseInt (jsTrim input))])
        ∧ (testAllDigits (jsTrim input) = false →
          parseArgumentsWithSchema input parsed sch
            = JsonValue.obj [("id", JsonValue.str (jsTrim input))])) := by
  have hnj : ∀ sch, parseArgumentsWithSchema input parsed sch
      = parseArgumentsWithSchema.parseArgumentsNoJson input sch := by
    intro sch
    cases parsed with
    | none => rfl
    | some v =>
      have := hp v rfl
      simp [parseArgumentsWithSchema, this]
  have hsingle : ∀ (k : String) (pspec : SchemaProperty),
      parseArgumentsWithSchema.parseArgumentsNoJson input
          (some { properties := some [(k, pspec)] })
        = JsonValue.obj [(k, coerceToType input pspec.type)] := by
    intro k pspec; rfl
  constructor
  · intro k pspec
    refine ⟨?_, ?_, ?_⟩
    · intro h
      rw [hnj, hsingle, coerceToType_numeric input pspec.type h]
    · intro h
      rw [hnj, hsingle, coerceToType_boolean input pspec.type h]
    · intro h1 h2 h3
      rw [hnj, hsingle, coerceToType_other input pspec.type h1 h2 h3]
  · intro sch hsch
    have hdef : parseArgumentsWithSchema.parseArgumentsNoJson input sch
        = defaultIdArgs input := by
      rcases hsch with h | h <;> rw [h] <;> rfl
    constructor
    · intro hdig
      rw [hnj, hdef, defaultIdArgs, if_pos hdig]
    · intro hdig
      rw [hnj, hdef, defaultIdArgs, if_neg (by simp [hdig])]

/-- Witness for `c9_parse_arguments_schema`: a numeric input against a
one-property `number` schema, and a non-numeric input with no schema. -/
theorem c9_witness :
    parseArgumentsWithSchema "42" none
        (some { properties := some [("limit", { type := some "number" })] })
      = JsonValue.obj [("limit", jsParseInt (jsTrim "42"))]
    ∧ jsParseInt (jsTrim "42") = JsonValue.numI 42
    ∧ parseArgumentsWithSchema "abc" none none
      = JsonValue.obj [("id", JsonValue.str (jsTrim "abc"))] := by
  refine ⟨?_, rfl, ?_⟩
  · exact ((c9_parse_arguments_schema "42" none (fun _ h => nomatch h)).1
      "limit" { type := some "number" }).1 (Or.inl rfl)
  · exact ((c9_parse_arguments_schema "abc" none (fun _ h => nomatch h)).2
      none (Or.inl rfl)).2 (by decide)

/-! ### Supporting lemmas for the correlator's exactly-once property -/

/-- Whether request `i` is registered, as a 0/1 count. -/
def pendingInd (st : ClientState) (i : String) : Nat :=
  if i ∈ st.pending then 1 else 0

theorem mem_removePending (l : List String) (i a : String) :
    a ∈ removePending l i ↔ a ∈ l ∧ a ≠ i := by
  induction l with
  | nil => simp [removePending]
  | cons x rest ih =>
    by_cases hx : x = i
    · subst hx
      rw [removePending, if_pos rfl, ih]
      constructor
      · exact fun h => ⟨List.mem_cons_of_mem x h.1, h.2⟩
      · rintro ⟨hmem, hne⟩
        rcases List.mem_cons.mp hmem with rfl | h
        · exact absurd rfl hne
        · exact ⟨h, hne⟩
    · rw [removePending, if_neg hx]
      constructor
      · intro h
        rcases List.mem_cons.mp h with rfl | h
        · exact ⟨List.mem_cons_self a rest, fun e => hx e⟩
        · exact ⟨List.mem_cons_of_mem x (ih.mp h).1, (ih.mp h).2⟩
      · rintro ⟨hmem, hne⟩
        rcases List.mem_cons.mp hmem with rfl | h
        · exact List.mem_cons_self a _
        · exact List.mem_cons_of_mem x (ih.mpr ⟨h, hne⟩)

theorem not_mem_removePending_self (l : List String) (i : String) :
    i ∉ removePending l i := by
  simp [mem_removePending]

theorem mem_registerPending (l : List String) (i a : String) :
    a ∈ registerPending l i ↔ a ∈ l ∨ a = i := by
  unfold registerPending
  split_ifs with h
  · constructor
    · exact Or.inl
    · rintro (ha | rfl)
      · exact ha
      · exact h
  · rw [List.mem_cons]
    tauto

theorem settleCount_append (i : String) (a b : List CAction) :
    settleCount i (a ++ b) = settleCount i a + settleCount i b := by
  simp [settleCount, List.filter_append]

theorem settleCount_single (i : String) (act : CAction) :
    settleCount i [act] = if isSettleFor i act then 1 else 0 := by
  simp only [settleCount, List.filter]
  split <;> simp_all

theorem regCount_cons (i : String) (e : CEvent) (es : List CEvent) :
    regCountEvents i (e :: es) = regCountEvents i [e] + regCountEvents i es := by
  simp only [regCountEvents, List.filter_cons]
  split <;> simp [Nat.add_comm]

theorem settle_remove_balance (l : List String) (i j : String) (h : j ∈ l) :
    ((if (j == i) = true then 1 else 0) : Nat)
      + (if i ∈ removePending l j then 1 else 0)
      = if i ∈ l then 1 else 0 := by
  by_cases hji : j = i
  · subst hji
    simp [h, not_mem_removePending_self]
  · have hji' : (j == i) = false := by simp [hji]
    have hij : i ≠ j := fun e => hji e.symm
    simp [hji', mem_removePending, hij]

theorem handleNonResponse_frame (st : ClientState) (m : InboundMessage) :
    (handleNonResponse st m).1.pending = st.pending
    ∧ ∀ i, settleCount i (handleNonResponse st m).2 = 0 := by
  unfold handleNonResponse
  split
  · split
    · split <;> simp [settleCount, isSettleFor]
    · simp [settleCount]
  · simp [settleCount, isSettleFor]

theorem handleMessage_settle_balance (st : ClientState) (m : InboundMessage)
    (i : String) :
    settleCount i (handleMessage st m).2 + pendingInd (handleMessage st m).1 i
      = pendingInd st i := by
  have hnr : settleCount i (handleNonResponse st m).2
      + pendingInd (handleNonResponse st m).1 i = pendingInd st i := by
    have h := handleNonResponse_frame st m
    simp only [h.2 i, pendingInd, h.1]
    omega
  unfold handleMessage
  split
  · rename_i j heq
    split
    · rename_i hg
      split <;>
        · rw [settleCount_single]
          simp only [isSettleFor, pendingInd]
          exact settle_remove_balance st.pending i j hg.2
    · exact hnr
  · exact hnr

theorem step_balance (st : ClientState) (e : CEvent) (i : String) :
    settleCount i (stepClient st e).2 + pendingInd (stepClient st e).1 i
      ≤ regCountEvents i [e] + pendingInd st i := by
  cases e with
  | register j =>
    have hreg : regCountEvents i [CEvent.register j]
        = if (j == i) = true then 1 else 0 := by
      simp only [regCountEvents, List.filter]
      split <;> simp_all
    simp only [stepClient, hreg]
    have hset : settleCount i ([] : List CAction) = 0 := rfl
    rw [hset]
    simp only [pendingInd, mem_registerPending]
    split_ifs <;> simp_all
  | inbound m =>
    have h := handleMessage_settle_balance st m i
    have hreg : regCountEvents i [CEvent.inbound m] = 0 := rfl
    simp only [stepClient, hreg]
    omega
  | timeoutFire j =>
    have hreg : regCountEvents i [CEvent.timeoutFire j] = 0 := rfl
    simp only [stepClient, hreg]
    split
    · rename_i hg
      rw [settleCount_single]
      simp only [isSettleFor, pendingInd, Nat.zero_add]
      exact Nat.le_of_eq (settle_remove_balance st.pending i j hg)
    · simp [settleCount]
  | sendFailed j =>
    have hreg : regCountEvents i [CEvent.sendFailed j] = 0 := rfl
    simp only [stepClient, hreg]
    split
    · rename_i hg
      rw [settleCount_single]
      simp only [isSettleFor, pendingInd, Nat.zero_add]
      exact Nat.le_of_eq (settle_remove_balance st.pending i j hg)
    · simp [settleCount]

theorem step_lower (st : ClientState) (e : CEvent) (i : String) :
    pendingInd st i ≤ settleCount i (stepClient st e).2
      + pendingInd (stepClient st e).1 i := by
  cases e with
  | register j =>
    have hset : settleCount i ([] : List CAction) = 0 := rfl
    simp only [stepClient, hset]
    simp only [pendingInd, mem_registerPending]
    split_ifs <;> simp_all
  | inbound m =>
    have h := handleMessage_settle_balance st m i
    simp only [stepClient]
    omega
  | timeoutFire j =>
    simp only [stepClient]
    split
    · rename_i hg
      rw [settleCount_single]
      simp only [isSettleFor, pendingInd, Nat.zero_add]
      exact Nat.le_of_eq (settle_remove_balance st.pending i j hg).symm
    · simp [settleCount]
  | sendFailed j =>
    simp only [stepClient]
    split
    · rename_i hg
      rw [settleCount_single]
      simp only [isSettleFor, pendingInd, Nat.zero_add]
      exact Nat.le_of_eq (settle_remove_balance st.pending i j hg).symm
    · simp [settleCount]

theorem runClient_balance (es : List CEvent) :
    ∀ (st : ClientState) (i : String),
      settleCount i (runClient st es).2 + pendingInd (runClient st es).1 i
        ≤ regCountEvents i es + pendingInd st i := by
  induction es with
  | nil => intro st i; simp [runClient, settleCount, regCountEvents]
  | cons e rest ih =>
    intro st i
    simp only [runClient]
    rw [settleCount_append, regCount_cons]
    have h1 := step_balance st e i
    have h2 := ih (stepClient st e).1 i
    omega

theorem runClient_lower (es : List CEvent) :
    ∀ (st : ClientState) (i : String),
      pendingInd st i ≤ settleCount i (runClient st es).2
        + pendingInd (runClient st es).1 i := by
  induction es with
  | nil => intro st i; simp [runClient, settleCount]
  | cons e rest ih =>
    intro st i
    simp only [runClient]
    rw [settleCount_append]
    have h1 := step_lower st e i
    have h2 := ih (stepClient st e).1 i
    omega

theorem runClient_append (es1 es2 : List CEvent) :
    ∀ st : ClientState,
      runClient st (es1 ++ es2)
        = ((runClient (runClient st es1).1 es2).1,
           (runClient st es1).2 ++ (runClient (runClient st es1).1 es2).2) := by
  induction es1 with
  | nil => intro st; simp [runClient]
  | cons e rest ih =>
    intro st
    simp only [List.cons_append, runClient, List.append_eq]
    rw [ih]
    simp [List.append_assoc]

theorem step_timeout_clears (st : ClientState) (i : String) :
    pendingInd (stepClient st (CEvent.timeoutFire i)).1 i = 0 := by
  simp only [stepClient]
  split
  · simp [pendingInd, mem_removePending]
  · rename_i h
    simp [pendingInd, h]

theorem step_timeout_balance (st : ClientState) (i : String) :
    settleCount i (stepClient st (CEvent.timeoutFire i)).2
      + pendingInd (stepClient st (CEvent.timeoutFire i)).1 i
      = pendingInd st i := by
  simp only [stepClient]
  split
  · rename_i hg
    rw [settleCount_single]
    simp only [isSettleFor, pendingInd]
    exact settle_remove_balance st.pending i i hg
  · simp [settleCount]

/-- Settle-count of a run split around two distinguished events. -/
theorem runClient_settle_decomp (i : String) (st : ClientState)
    (u1 u2 u3 : List CEvent) (e1 e2 : CEvent) :
    settleCount i (runClient st (u1 ++ e1 :: (u2 ++ e2 :: u3))).2
      = settleCount i (runClient st u1).2
        + settleCount i (stepClient (runClient st u1).1 e1).2
        + settleCount i
            (runClient (stepClient (runClient st u1).1 e1).1 u2).2
        + settleCount i
            (stepClient (runClient (stepClient (runClient st u1).1 e1).1 u2).1
              e2).2
        + settleCount i
            (runClient (stepClient
              (runClient (stepClient (runClient st u1).1 e1).1 u2).1 e2).1
              u3).2 := by
  simp only [runClient_append, runClient, settleCount_append]
  omega

/-- Claim C1: a pending entry registered once is settled (resolved or
rejected) exactly once over any trace in which its timeout eventually fires —
by the first matching inbound response or by the timeout, whichever finds it
still registered; after the timeout step its identifier is no longer
registered, and a late-arriving response carrying the identifier of an
unregistered request leaves the correlation map unchanged and resolves or
rejects nothing. -/
theorem c1_pending_removed_exactly_once (i : String) (t1 t2 t3 : List CEvent)
    (h1 : regCountEvents i t1 = 0) (h2 : regCountEvents i t2 = 0)
    (h3 : regCountEvents i t3 = 0) :
    settleCount i (runClient initialClientState
        (t1 ++ CEvent.register i :: (t2 ++ CEvent.timeoutFire i :: t3))).2 = 1
    ∧ (∀ st : ClientState, i ∉ (stepClient st (CEvent.timeoutFire i)).1.pending)
    ∧ (∀ (st : ClientState) (m : InboundMessage),
        i ∉ st.pending → m.id = some i →
        (handleMessage st m).1.pending = st.pending
        ∧ settleCount i (handleMessage st m).2 = 0) := by
  refine ⟨?_, ?_, ?_⟩
  · have hind0 : pendingInd initialClientState i = 0 := by
      simp [pendingInd, initialClientState]
    have hbal1 := runClient_balance t1 initialClientState i
    rw [h1, hind0] at hbal1
    have hs1 : settleCount i (runClient initialClientState t1).2 = 0 := by omega
    have hiA : pendingInd (runClient initialClientState t1).1 i = 0 := by omega
    have hs2 : settleCount i
        (stepClient (runClient initialClientState t1).1 (CEvent.register i)).2
        = 0 := rfl
    have hiR : pendingInd
        (stepClient (runClient initialClientState t1).1 (CEvent.register i)).1 i
        = 1 := by
      simp [stepClient, pendingInd, mem_registerPending]
    have hbal2 := runClient_balance t2
      (stepClient (runClient initialClientState t1).1 (CEvent.register i)).1 i
    rw [h2, hiR] at hbal2
    have hlow2 := runClient_lower t2
      (stepClient (runClient initialClientState t1).1 (CEvent.register i)).1 i
    rw [hiR] at hlow2
    have hbalT := step_timeout_balance
      (runClient (stepClient (runClient initialClientState t1).1
        (CEvent.register i)).1 t2).1 i
    have hclrT := step_timeout_clears
      (runClient (stepClient (runClient initialClientState t1).1
        (CEvent.register i)).1 t2).1 i
    have hbal3 := runClient_balance t3
      (stepClient (runClient (stepClient (runClient initialClientState t1).1
        (CEvent.register i)).1 t2).1 (CEvent.timeoutFire i)).1 i
    rw [h3, hclrT] at hbal3
    rw [runClient_settle_decomp]
    omega
  · intro st
    have h := step_timeout_clears st i
    intro hmem
    simp [pendingInd, hmem] at h
  · intro st m hnp hid
    have hnr := handleNonResponse_frame st m
    simp only [handleMessage, hid]
    rw [if_neg (fun hc => hnp hc.2)]
    exact ⟨hnr.1, hnr.2 i⟩


/-- Witness for `c1_pending_removed_exactly_once`: a lone request that is
registered and then times out. -/
theorem c1_witness :
    regCountEvents "req_1000_abc" ([] : List CEvent) = 0
    ∧ settleCount "req_1000_abc" (runClient initialClientState
        [CEvent.register "req_1000_abc",
         CEvent.timeoutFire "req_1000_abc"]).2 = 1 :=
  ⟨rfl, (c1_pending_removed_exactly_once "req_1000_abc" [] [] [] rfl rfl rfl).1⟩
